import Mathlib

/-!
Verification of the FloatChat ingestion pipeline and spatial query
(`src/ingest_data.py`, `src/app.py`).

The embedding models:
* the raw NetCDF file content as seen by `parse_argo_file` (per-sample rows
  whose six scalar columns may each be missing, plus the platform number);
* `parse_argo_file` itself (projection, rename, constant `float_id` column,
  `dropna`, exception handling returning `None`);
* the `__main__` ingestion flow: schema check/creation, the dedup count query,
  record construction with the derived `location` point, and the single bulk
  insert inside one transaction that commits or rolls back as a unit;
* the map tool's spatial query from `app.py` (SELECT DISTINCT ... WHERE
  ST_Intersects(location, ST_MakeEnvelope(...)) ORDER BY timestamp DESC).

Timestamps are modelled as `Int` (instants with a total order), physical
quantities and coordinates as `Rat`.  The storage engine is modelled as a list
of stored records; transactionality is modelled by an explicit outcome oracle
for the steps inside the transaction body, with the rolled-back state being the
pre-call list.  Each run also emits an event trace (transaction begin/commit/
rollback, the dedup count query, the bulk insert) used for the temporal claims.
-/

/-- A geospatial point value, as stored in the `location` geometry column.
`x` is the first WKT coordinate (longitude in `POINT(lon lat)`), `y` the
second (latitude); `srid` is the coordinate reference system id. -/
structure GeoPoint where
  x : Rat
  y : Rat
  srid : Nat
deriving DecidableEq, Repr

/-- One source sample row of the NetCDF file after projection to the six
scalar columns (`JULD`, `LATITUDE`, `LONGITUDE`, `PRES_ADJUSTED`,
`TEMP_ADJUSTED`, `PSAL_ADJUSTED`, renamed).  Each field may be missing
(NaN/NaT in the dataframe), modelled by `Option`. -/
structure RawRow where
  timestamp : Option Int
  latitude : Option Rat
  longitude : Option Rat
  pressure : Option Rat
  temperature : Option Rat
  salinity : Option Rat
deriving DecidableEq, Repr

/-- A fully populated parsed measurement row, as produced by
`parse_argo_file` after `dropna`: all six scalar fields present, plus the
constant `float_id` column. -/
structure Row where
  float_id : String
  timestamp : Int
  latitude : Rat
  longitude : Rat
  pressure : Rat
  temperature : Rat
  salinity : Rat
deriving DecidableEq, Repr

/-- A record of the `argo_measurements` table (the surrogate `id` column is
assigned by the storage engine and irrelevant to every claim, so it is
omitted). -/
structure StoredRecord where
  float_id : String
  timestamp : Int
  latitude : Rat
  longitude : Rat
  pressure : Rat
  temperature : Rat
  salinity : Rat
  location : GeoPoint
deriving DecidableEq, Repr

/-- The input handed to `parse_argo_file`: either the file cannot be opened
(`xr.open_dataset` raises, with some cause), or a required variable is absent
(attribute/key lookup raises, with some cause), or the file is readable with
a platform number (already decoded and stripped) and its sample rows. -/
inductive NcFile
  | openError (cause : String)
  | missingVariable (cause : String)
  | content (platform : String) (rows : List RawRow)
deriving DecidableEq, Repr

/-- `True` iff any of the six scalar fields of the source row is missing —
the condition under which `dropna` removes the row. -/
def RawRow.hasMissing (r : RawRow) : Bool :=
  r.timestamp.isNone || r.latitude.isNone || r.longitude.isNone ||
    r.pressure.isNone || r.temperature.isNone || r.salinity.isNone

/-- Keep a source row only when all six scalar fields are present, attaching
the platform number as the constant `float_id` column (the `dropna` step of
`parse_argo_file`, fused with the projection into `Row`). -/
def completeRow (platform : String) (r : RawRow) : Option Row :=
  match r.timestamp, r.latitude, r.longitude, r.pressure, r.temperature, r.salinity with
  | some ts, some la, some lo, some pr, some te, some sa =>
      some { float_id := platform, timestamp := ts, latitude := la, longitude := lo,
             pressure := pr, temperature := te, salinity := sa }
  | _, _, _, _, _, _ => none

/-- `parse_argo_file` of `src/ingest_data.py`: opens the dataset, extracts the
platform number, projects and renames the six scalar columns, attaches the
constant `float_id` column, and drops rows with any missing value.  Any
exception (unopenable file, absent variable) is caught and `None` is
returned. -/
def parse_argo_file : NcFile → Option (List Row)
  | .openError _ => none
  | .missingVariable _ => none
  | .content platform rows => some (rows.filterMap (completeRow platform))

/-- The lines printed by `parse_argo_file` (its only other effect): the
opening banner, then either the caught-exception report or the success
line. -/
def parseLog : NcFile → List String
  | .openError cause => ["Opening NetCDF file", "Error parsing file: " ++ cause]
  | .missingVariable cause => ["Opening NetCDF file", "Error parsing file: " ++ cause]
  | .content platform rows =>
      ["Opening NetCDF file",
       "Successfully parsed " ++ toString (rows.filterMap (completeRow platform)).length
         ++ " measurements for float " ++ platform]

/-- `argo_data['float_id'].iloc[0]` — the `float_id` of the first batch row
(the main flow only evaluates this on a non-empty batch). -/
def batchFid : List Row → String
  | [] => ""
  | r :: _ => r.float_id

/-- `argo_data['timestamp'].min()` — the minimum timestamp across the batch
(the main flow only evaluates this on a non-empty batch). -/
def batchMinTs : List Row → Int
  | [] => 0
  | r :: rs => (rs.map Row.timestamp).foldl min r.timestamp

/-- The dedup count query
`SELECT COUNT(*) FROM argo_measurements WHERE float_id = :fid AND timestamp >= :ts`
evaluated against the modelled storage. -/
def dedupCount (db : List StoredRecord) (fid : String) (ts : Int) : Nat :=
  db.countP (fun s => s.float_id == fid && ts ≤ s.timestamp)

/-- The Dedup Gate decision of the main flow (`result > 0`): skip the batch
iff some stored row matches the batch's `float_id` with timestamp at or after
the batch minimum. -/
def alreadyIngested (db : List StoredRecord) (batch : List Row) : Bool :=
  0 < dedupCount db (batchFid batch) (batchMinTs batch)

/-- Build the record dict inserted for one row:
`record['location'] = f"POINT({row['longitude']} {row['latitude']})"`,
interpreted in the `location` column's SRID 4326. -/
def makeRecord (r : Row) : StoredRecord :=
  { float_id := r.float_id, timestamp := r.timestamp, latitude := r.latitude,
    longitude := r.longitude, pressure := r.pressure, temperature := r.temperature,
    salinity := r.salinity,
    location := { x := r.longitude, y := r.latitude, srid := 4326 } }

/-- Storage-engine events issued by one ingestion run, in order. -/
inductive Event
  | txBegin
  | txCommit
  | txRollback
  | dedupQuery (fid : String) (minTs : Int)
  | bulkInsert (records : List StoredRecord)
deriving DecidableEq, Repr

/-- Outcome oracle for the fallible steps inside the transaction body:
the per-row record construction loop and the single bulk insert may each
raise (a storage/encoding failure outside the program's control). -/
inductive InsertOutcome
  | ok
  | constructFail
  | insertFail
deriving DecidableEq, Repr

/-- Result classification of one run of the `__main__` ingestion flow. -/
inductive RunOutcome
  | parseFailed
  | emptyBatch
  | skipped
  | inserted (n : Nat)
  | aborted
deriving DecidableEq, Repr

/-- The `__main__` ingestion flow of `src/ingest_data.py` for one file:
parse; if the batch is `None` or empty do nothing; otherwise open one
transaction, run the dedup count query, and either skip (commit, no insert)
or construct the records and issue the single bulk insert, committing on
success and rolling back (storage unchanged) if construction or the insert
raises.  Returns the post-run storage, the event trace, and the outcome. -/
def runIngestion (db : List StoredRecord) (file : NcFile) (oracle : InsertOutcome) :
    List StoredRecord × List Event × RunOutcome :=
  match parse_argo_file file with
  | none => (db, [], .parseFailed)
  | some batch =>
    if batch.isEmpty then (db, [], .emptyBatch)
    else
      let fid := batchFid batch
      let minTs := batchMinTs batch
      if alreadyIngested db batch then
        (db, [.txBegin, .dedupQuery fid minTs, .txCommit], .skipped)
      else
        match oracle with
        | .constructFail =>
            (db, [.txBegin, .dedupQuery fid minTs, .txRollback], .aborted)
        | .insertFail =>
            (db, [.txBegin, .dedupQuery fid minTs,
                  .bulkInsert (batch.map makeRecord), .txRollback], .aborted)
        | .ok =>
            (db ++ batch.map makeRecord,
             [.txBegin, .dedupQuery fid minTs,
              .bulkInsert (batch.map makeRecord), .txCommit],
             .inserted batch.length)

/-! ## Schema Manager -/

/-- Column types appearing in the `argo_measurements` table definition. -/
inductive ColType
  | integer
  | string (len : Nat)
  | datetime
  | float
  | geometry (shape : String) (srid : Nat)
deriving DecidableEq, Repr

/-- One `Column(...)` of the SQLAlchemy table definition. -/
structure ColumnDef where
  name : String
  ty : ColType
  primaryKey : Bool := false
  autoincrement : Bool := false
deriving DecidableEq, Repr

/-- The `argo_table` definition of `src/ingest_data.py` (lines 23–33),
column for column. -/
def argo_table : List ColumnDef :=
  [ { name := "id", ty := .integer, primaryKey := true, autoincrement := true },
    { name := "float_id", ty := .string 20 },
    { name := "timestamp", ty := .datetime },
    { name := "latitude", ty := .float },
    { name := "longitude", ty := .float },
    { name := "pressure", ty := .float },
    { name := "temperature", ty := .float },
    { name := "salinity", ty := .float },
    { name := "location", ty := .geometry "POINT" 4326 } ]

/-- The storage catalog: the tables that exist, each with its column list. -/
structure Catalog where
  tables : List (String × List ColumnDef)
deriving DecidableEq, Repr

/-- `inspector.has_table('argo_measurements')`. -/
def Catalog.hasTable (c : Catalog) (name : String) : Bool :=
  c.tables.any (fun t => t.1 == name)

/-- The schema step of `__main__`: if `argo_measurements` is absent, create
it from the metadata (`metadata.create_all(engine)`, whose only table is
`argo_table`); otherwise leave the catalog untouched. -/
def ensureSchema (c : Catalog) : Catalog :=
  if c.hasTable "argo_measurements" then c
  else { tables := c.tables ++ [("argo_measurements", argo_table)] }

/-! ## Spatial query (map tool, `src/app.py` tab 2) -/

/-- A result row of the map tool's query:
`SELECT DISTINCT float_id, latitude, longitude, timestamp`. -/
structure QRow where
  float_id : String
  latitude : Rat
  longitude : Rat
  timestamp : Int
deriving DecidableEq, Repr

/-- Modelled from the spec: the storage engine's evaluation of
`ST_Intersects(location, ST_MakeEnvelope(minLon, minLat, maxLon, maxLat, 4326))`
for a point geometry — the point shares a location with the closed
rectangular envelope iff its coordinates lie within the bounds. -/
def stIntersectsEnvelope (p : GeoPoint) (minLon minLat maxLon maxLat : Rat) : Bool :=
  decide (minLon ≤ p.x) && decide (p.x ≤ maxLon) &&
    decide (minLat ≤ p.y) && decide (p.y ≤ maxLat)

/-- Projection of a stored record onto the four selected columns. -/
def projQRow (s : StoredRecord) : QRow :=
  { float_id := s.float_id, latitude := s.latitude, longitude := s.longitude,
    timestamp := s.timestamp }

/-- `ORDER BY timestamp DESC` as a relation on result rows. -/
def tsDesc (a b : QRow) : Prop := b.timestamp ≤ a.timestamp

instance : DecidableRel tsDesc := fun a b => inferInstanceAs (Decidable (b.timestamp ≤ a.timestamp))

instance : IsTotal QRow tsDesc := ⟨fun a b => le_total b.timestamp a.timestamp⟩

instance : IsTrans QRow tsDesc := ⟨fun _ _ _ h h' => le_trans h' h⟩

/-- Modelled from the spec: the storage engine executing the map tool's query
(`src/app.py` lines 139–147) against the stored table — filter by envelope
intersection, project the four columns, remove duplicates (`DISTINCT`), and
sort by timestamp descending (`ORDER BY timestamp DESC`). -/
def spatialQuery (db : List StoredRecord) (minLon minLat maxLon maxLat : Rat) : List QRow :=
  List.insertionSort tsDesc
    (((db.filter (fun s => stIntersectsEnvelope s.location minLon minLat maxLon maxLat)).map
        projQRow).dedup)

/-! ## Concrete sample data (used by witnesses) -/

/-- A source row with all six fields present. -/
def sampleRaw : RawRow :=
  { timestamp := some 0, latitude := some 10, longitude := some 20,
    pressure := some 5, temperature := some 15, salinity := some 35 }

/-- A source row with a missing salinity value. -/
def sampleRawMissing : RawRow :=
  { timestamp := some 1, latitude := some 10, longitude := some 20,
    pressure := some 5, temperature := some 15, salinity := none }

/-- A readable one-profile file for float `2902347`. -/
def sampleFile : NcFile := .content "2902347" [sampleRaw]

/-- The parsed row `sampleRaw` yields under platform `2902347`. -/
def sampleRow : Row :=
  { float_id := "2902347", timestamp := 0, latitude := 10, longitude := 20,
    pressure := 5, temperature := 15, salinity := 35 }

/-! ## Helper lemmas -/

theorem foldl_min_le_init (l : List Int) (a : Int) : l.foldl min a ≤ a := by
  induction l generalizing a with
  | nil => exact le_refl a
  | cons x xs ih => exact le_trans (ih (min a x)) (min_le_left a x)

theorem foldl_min_le_mem (l : List Int) : ∀ (a x : Int), x ∈ l → l.foldl min a ≤ x := by
  induction l with
  | nil => intro a x hx; cases hx
  | cons y ys ih =>
    intro a x hx
    rcases List.mem_cons.mp hx with rfl | h
    · exact le_trans (foldl_min_le_init ys (min a x)) (min_le_right a x)
    · exact ih (min a y) x h

/-- The batch minimum timestamp is at or below every batch row's timestamp. -/
theorem batchMinTs_le (b : Row) (bs : List Row) (x : Row) (hx : x ∈ b :: bs) :
    batchMinTs (b :: bs) ≤ x.timestamp := by
  rcases List.mem_cons.mp hx with rfl | h
  · exact foldl_min_le_init _ _
  · exact foldl_min_le_mem _ _ _ (List.mem_map_of_mem Row.timestamp h)

/-- Any stored row matching the batch's `float_id` with timestamp at or after
the batch minimum makes the Dedup Gate skip. -/
theorem alreadyIngested_of_mem (db : List StoredRecord) (batch : List Row) (s : StoredRecord)
    (hs : s ∈ db) (hfid : s.float_id = batchFid batch) (hts : batchMinTs batch ≤ s.timestamp) :
    alreadyIngested db batch = true := by
  have hcount : 0 < dedupCount db (batchFid batch) (batchMinTs batch) := by
    apply List.countP_pos_iff.mpr
    exact ⟨s, hs, by simp [hfid, hts]⟩
  simpa [alreadyIngested] using hcount

/-! ## C1: idempotence -/

/-- C1: ingestion is idempotent at batch granularity — if a run of the
ingestion flow on a file stores a (necessarily non-empty) batch, then a
second run on the same file is decided `skipped` by the Dedup Gate and
leaves storage exactly as the first run left it (zero rows inserted). -/
theorem ingestion_idempotent (db : List StoredRecord) (file : NcFile) (oracle : InsertOutcome)
    (n : Nat) (h : (runIngestion db file InsertOutcome.ok).2.2 = RunOutcome.inserted n) :
    (runIngestion (runIngestion db file InsertOutcome.ok).1 file oracle).2.2 =
      RunOutcome.skipped ∧
    (runIngestion (runIngestion db file InsertOutcome.ok).1 file oracle).1 =
      (runIngestion db file InsertOutcome.ok).1 := by
  cases hp : parse_argo_file file with
  | none => simp [runIngestion, hp] at h
  | some batch =>
    cases batch with
    | nil => simp [runIngestion, hp] at h
    | cons b bs =>
      by_cases hai : alreadyIngested db (b :: bs) = true
      · simp [runIngestion, hp, hai] at h
      · have hdb1 : (runIngestion db file InsertOutcome.ok).1 =
            db ++ (b :: bs).map makeRecord := by
          simp [runIngestion, hp, hai]
        have hmem : makeRecord b ∈ db ++ (b :: bs).map makeRecord :=
          List.mem_append_right _ (List.mem_map_of_mem makeRecord (List.mem_cons_self b bs))
        have hai2 : alreadyIngested (db ++ (b :: bs).map makeRecord) (b :: bs) = true :=
          alreadyIngested_of_mem _ _ (makeRecord b) hmem rfl
            (batchMinTs_le b bs b (List.mem_cons_self b bs))
        rw [hdb1]
        simp only [List.map_cons] at hai2
        constructor <;> simp [runIngestion, hp, hai2]

/-- Witness for C1 at a concrete file and empty initial storage. -/
theorem ingestion_idempotent_witness :
    (runIngestion (runIngestion [] sampleFile InsertOutcome.ok).1 sampleFile
        InsertOutcome.ok).2.2 = RunOutcome.skipped :=
  (ingestion_idempotent [] sampleFile InsertOutcome.ok 1 (by decide)).1

/-! ## C10: empty or failed parse leaves storage untouched -/

/-- C10: when the parse returns `None` or an empty batch, the run opens no
transaction, issues no query and no insert (empty event trace), and storage
is unchanged. -/
theorem empty_batch_no_effect (db : List StoredRecord) (file : NcFile) (oracle : InsertOutcome)
    (h : parse_argo_file file = none ∨ parse_argo_file file = some []) :
    (runIngestion db file oracle).1 = db ∧ (runIngestion db file oracle).2.1 = [] := by
  rcases h with h | h <;> simp [runIngestion, h]

/-- Witness for C10 at a file all of whose rows are dropped. -/
theorem empty_batch_no_effect_witness :
    (runIngestion [makeRecord sampleRow] (NcFile.content "F" [sampleRawMissing])
        InsertOutcome.ok).1 = [makeRecord sampleRow] :=
  (empty_batch_no_effect [makeRecord sampleRow] (NcFile.content "F" [sampleRawMissing])
    InsertOutcome.ok (Or.inr (by decide))).1

/-! ## C7: parse failure recovery -/

/-- C7 counterexample: the failure value returned by `parse_argo_file` does
not capture the underlying cause — two distinct causes produce the very same
return value `none` (the cause is only printed). -/
theorem parse_failure_value_counterexample :
    parse_argo_file (NcFile.openError "No such file or directory") =
      parse_argo_file (NcFile.openError "Permission denied") ∧
    "No such file or directory" ≠ "Permission denied" ∧
    parse_argo_file (NcFile.openError "No such file or directory") = none :=
  ⟨rfl, by decide, rfl⟩

/-- C7 amended: on an unopenable file or an absent required variable,
`parse_argo_file` returns `None` (never a partial batch), the cause is
reported on the printed log rather than in the return value, no exception
reaches the caller, and the main run skips insertion and leaves storage
unchanged instead of crashing. -/
theorem parse_failure_recovery (file : NcFile) (cause : String) (db : List StoredRecord)
    (oracle : InsertOutcome)
    (h : file = NcFile.openError cause ∨ file = NcFile.missingVariable cause) :
    parse_argo_file file = none ∧
    parseLog file = ["Opening NetCDF file", "Error parsing file: " ++ cause] ∧
    runIngestion db file oracle = (db, [], RunOutcome.parseFailed) := by
  rcases h with rfl | rfl <;> exact ⟨rfl, rfl, rfl⟩

/-- Witness for C7's amended statement at a concrete unopenable file. -/
theorem parse_failure_recovery_witness :
    parseLog (NcFile.openError "No such file or directory") =
      ["Opening NetCDF file", "Error parsing file: No such file or directory"] :=
  (parse_failure_recovery (NcFile.openError "No such file or directory")
    "No such file or directory" [] InsertOutcome.ok (Or.inl rfl)).2.1

/-! ## C2: the Dedup Gate decision -/

/-- C2: for every non-empty parsed batch, the run is decided `skipped` iff
the count of stored rows with the batch's `float_id` and timestamp at or
after the batch minimum is positive; a skip inserts nothing (storage
unchanged, no bulk-insert event), and a proceed (absent a record-construction
failure) hands exactly the full batch to the single bulk insert. -/
theorem dedup_gate_correct (db : List StoredRecord) (file : NcFile) (oracle : InsertOutcome)
    (batch : List Row) (hp : parse_argo_file file = some batch) (hne : batch ≠ []) :
    ((runIngestion db file oracle).2.2 = RunOutcome.skipped ↔
       0 < dedupCount db (batchFid batch) (batchMinTs batch)) ∧
    ((runIngestion db file oracle).2.2 = RunOutcome.skipped →
       (runIngestion db file oracle).1 = db ∧
       ∀ recs, Event.bulkInsert recs ∉ (runIngestion db file oracle).2.1) ∧
    ((runIngestion db file oracle).2.2 ≠ RunOutcome.skipped →
       oracle ≠ InsertOutcome.constructFail →
       Event.bulkInsert (batch.map makeRecord) ∈ (runIngestion db file oracle).2.1) := by
  cases batch with
  | nil => exact absurd rfl hne
  | cons b bs =>
    by_cases hai : alreadyIngested db (b :: bs) = true
    · have hcount : 0 < dedupCount db (batchFid (b :: bs)) (batchMinTs (b :: bs)) := by
        simpa [alreadyIngested] using hai
      refine ⟨by simp [runIngestion, hp, hai, hcount], ?_, ?_⟩
      · intro _
        constructor
        · simp [runIngestion, hp, hai]
        · intro recs
          simp [runIngestion, hp, hai]
      · intro hns _
        exact absurd (by simp [runIngestion, hp, hai]) hns
    · have hcount : ¬ 0 < dedupCount db (batchFid (b :: bs)) (batchMinTs (b :: bs)) := by
        simpa [alreadyIngested] using hai
      refine ⟨?_, ?_, ?_⟩
      · cases oracle <;> simp [runIngestion, hp, hai, hcount]
      · intro hsk
        exact absurd hsk (by cases oracle <;> simp [runIngestion, hp, hai])
      · intro _ hoc
        cases oracle with
        | constructFail => exact absurd rfl hoc
        | insertFail => simp [runIngestion, hp, hai]
        | ok => simp [runIngestion, hp, hai]

/-- Witness for C2 at a concrete file: the proceed path hands the full batch
to the bulk insert. -/
theorem dedup_gate_correct_witness :
    Event.bulkInsert ([sampleRow].map makeRecord) ∈
      (runIngestion [] sampleFile InsertOutcome.ok).2.1 :=
  (dedup_gate_correct [] sampleFile InsertOutcome.ok [sampleRow] (by decide)
    (by decide)).2.2 (by decide) (by decide)

/-! ## C3: transactional atomicity of the bulk load -/

/-- C3: the bulk load is atomic — under any failure of record construction
or of the insert, the transaction rolls back and post-run storage equals the
pre-call state (whenever the trace shows a rollback, storage is unchanged);
and whenever a bulk insert was issued, the transaction commits iff the insert
succeeded. -/
theorem bulk_load_atomic (db : List StoredRecord) (file : NcFile) (oracle : InsertOutcome) :
    (oracle ≠ InsertOutcome.ok → (runIngestion db file oracle).1 = db) ∧
    (Event.txRollback ∈ (runIngestion db file oracle).2.1 →
       (runIngestion db file oracle).1 = db) ∧
    ((∃ recs, Event.bulkInsert recs ∈ (runIngestion db file oracle).2.1) →
       (Event.txCommit ∈ (runIngestion db file oracle).2.1 ↔ oracle = InsertOutcome.ok)) := by
  cases hp : parse_argo_file file with
  | none => simp [runIngestion, hp]
  | some batch =>
    cases batch with
    | nil => simp [runIngestion, hp]
    | cons b bs =>
      by_cases hai : alreadyIngested db (b :: bs) = true
      · simp [runIngestion, hp, hai]
      · cases oracle <;> simp [runIngestion, hp, hai]

/-- Witness for C3: a failing bulk insert leaves concrete storage exactly as
it was before the call. -/
theorem bulk_load_atomic_witness :
    (runIngestion [] sampleFile InsertOutcome.insertFail).1 = [] :=
  (bulk_load_atomic [] sampleFile InsertOutcome.insertFail).1 (by decide)

/-! ## C4: the completeness filter of the parser -/

/-- Inverting `completeRow`: a kept row copies every field from a source row
all of whose six scalar fields are present. -/
theorem completeRow_eq_some {platform : String} {r : RawRow} {b : Row}
    (h : completeRow platform r = some b) :
    b.float_id = platform ∧ r.timestamp = some b.timestamp ∧ r.latitude = some b.latitude ∧
      r.longitude = some b.longitude ∧ r.pressure = some b.pressure ∧
      r.temperature = some b.temperature ∧ r.salinity = some b.salinity := by
  rcases r with ⟨ts, la, lo, pr, te, sa⟩
  cases ts <;> cases la <;> cases lo <;> cases pr <;> cases te <;> cases sa <;>
    simp [completeRow] at h
  rcases h with rfl
  simp

/-- `completeRow` keeps a source row iff none of its six fields is missing. -/
theorem completeRow_isSome (platform : String) (r : RawRow) :
    (completeRow platform r).isSome = !r.hasMissing := by
  rcases r with ⟨ts, la, lo, pr, te, sa⟩
  cases ts <;> cases la <;> cases lo <;> cases pr <;> cases te <;> cases sa <;>
    simp [completeRow, RawRow.hasMissing]

/-- The number of kept rows equals the number of fully populated source
rows. -/
theorem length_filterMap_completeRow (platform : String) (rows : List RawRow) :
    (rows.filterMap (completeRow platform)).length =
      rows.countP (fun r => !r.hasMissing) := by
  induction rows with
  | nil => rfl
  | cons r rs ih =>
    rw [List.filterMap_cons, List.countP_cons]
    cases hcr : completeRow platform r with
    | none =>
      have hm : (!r.hasMissing) = false := by
        have := completeRow_isSome platform r
        rw [hcr] at this
        exact this.symm
      simp [hm, ih]
    | some b =>
      have hm : (!r.hasMissing) = true := by
        have := completeRow_isSome platform r
        rw [hcr] at this
        exact this.symm
      simp [hm, ih]

/-- C4: completeness filter — on any readable file, every row of the batch
returned by `parse_argo_file` carries the platform number as `float_id` and
copies all six scalar fields from a source row in which every one of them is
present; and every source row with any missing field is absent: the batch
has exactly as many rows as there are fully populated source rows. -/
theorem parse_completeness (platform : String) (rows : List RawRow) (batch : List Row)
    (hp : parse_argo_file (NcFile.content platform rows) = some batch) :
    (∀ b ∈ batch, b.float_id = platform ∧
       ∃ r ∈ rows, r.timestamp = some b.timestamp ∧ r.latitude = some b.latitude ∧
         r.longitude = some b.longitude ∧ r.pressure = some b.pressure ∧
         r.temperature = some b.temperature ∧ r.salinity = some b.salinity) ∧
    batch.length = rows.countP (fun r => !r.hasMissing) := by
  have hb : batch = rows.filterMap (completeRow platform) := by
    simpa [parse_argo_file] using hp.symm
  subst hb
  constructor
  · intro b hbmem
    rcases List.mem_filterMap.mp hbmem with ⟨r, hr, hcr⟩
    rcases completeRow_eq_some hcr with ⟨hfid, h1, h2, h3, h4, h5, h6⟩
    exact ⟨hfid, r, hr, h1, h2, h3, h4, h5, h6⟩
  · exact length_filterMap_completeRow platform rows

/-- Witness for C4 on a concrete file with one complete and one incomplete
source row. -/
theorem parse_completeness_witness :
    ([sampleRow] : List Row).length =
      [sampleRaw, sampleRawMissing].countP (fun r => !r.hasMissing) :=
  (parse_completeness "2902347" [sampleRaw, sampleRawMissing] [sampleRow] (by decide)).2

/-! ## C5: derived-field consistency of `location` -/

/-- The `location` point of a stored record equals the SRID-4326 point built
from that record's own longitude (first coordinate) and latitude (second). -/
def locationConsistent (s : StoredRecord) : Prop :=
  s.location = { x := s.longitude, y := s.latitude, srid := 4326 }

instance (s : StoredRecord) : Decidable (locationConsistent s) :=
  inferInstanceAs (Decidable (s.location = _))

/-- C5: every record the ingestion run inserts carries a `location` equal to
the SRID-4326 point `(longitude, latitude)` of that same record, and no run
mutates `location` of already stored records — each post-run record either
was already stored or is `makeRecord` of a batch row (no other write path
exists). -/
theorem location_consistency (db : List StoredRecord) (file : NcFile) (oracle : InsertOutcome)
    (hdb : ∀ s ∈ db, locationConsistent s) :
    (∀ s ∈ (runIngestion db file oracle).1, locationConsistent s) ∧
    (∀ s ∈ (runIngestion db file oracle).1, s ∈ db ∨ ∃ r, s = makeRecord r) := by
  have hmk : ∀ r : Row, locationConsistent (makeRecord r) := fun r => rfl
  have hsplit : (runIngestion db file oracle).1 = db ∨
      ∃ batch : List Row, (runIngestion db file oracle).1 = db ++ batch.map makeRecord := by
    cases hp : parse_argo_file file with
    | none => exact Or.inl (by simp [runIngestion, hp])
    | some batch =>
      cases batch with
      | nil => exact Or.inl (by simp [runIngestion, hp])
      | cons b bs =>
        by_cases hai : alreadyIngested db (b :: bs) = true
        · exact Or.inl (by simp [runIngestion, hp, hai])
        · cases oracle with
          | constructFail => exact Or.inl (by simp [runIngestion, hp, hai])
          | insertFail => exact Or.inl (by simp [runIngestion, hp, hai])
          | ok => exact Or.inr ⟨b :: bs, by simp [runIngestion, hp, hai]⟩
  rcases hsplit with heq | ⟨batch, heq⟩
  · rw [heq]
    exact ⟨hdb, fun s hs => Or.inl hs⟩
  · rw [heq]
    constructor
    · intro s hs
      rcases List.mem_append.mp hs with hs | hs
      · exact hdb s hs
      · rcases List.mem_map.mp hs with ⟨r, _, rfl⟩
        exact hmk r
    · intro s hs
      rcases List.mem_append.mp hs with hs | hs
      · exact Or.inl hs
      · rcases List.mem_map.mp hs with ⟨r, _, rfl⟩
        exact Or.inr ⟨r, rfl⟩

/-- Witness for C5: the record inserted for the sample row has a consistent
`location`. -/
theorem location_consistency_witness : locationConsistent (makeRecord sampleRow) :=
  (location_consistency [] sampleFile InsertOutcome.ok (by simp)).1
    (makeRecord sampleRow) (by decide)

/-! ## C6: check and insert share one transaction -/

/-- Whether an event opens a transaction. -/
def isTxBegin : Event → Bool
  | .txBegin => true
  | _ => false

/-- Whether an event closes a transaction (commit or rollback). -/
def isTxEnd : Event → Bool
  | .txCommit => true
  | .txRollback => true
  | _ => false

/-- Number of transaction opens strictly before position `i` of a trace. -/
def beginsBefore (tr : List Event) (i : Nat) : Nat :=
  (tr.take i).countP isTxBegin

/-- Number of transaction closes strictly before position `i` of a trace. -/
def endsBefore (tr : List Event) (i : Nat) : Nat :=
  (tr.take i).countP isTxEnd

/-- Positions `i` and `j` of a trace lie inside the same open transaction:
the same opens and closes precede both, and at least one transaction opened
before them is still unclosed. -/
def sameTransaction (tr : List Event) (i j : Nat) : Prop :=
  beginsBefore tr i = beginsBefore tr j ∧ endsBefore tr i = endsBefore tr j ∧
    endsBefore tr i < beginsBefore tr i

/-- In a trace `[txBegin, dedupQuery .., e₂, e₃]`, positions 1 and 2 share
the transaction opened at position 0. -/
theorem sameTransaction_one_two (fid : String) (minTs : Int) (e₂ e₃ : Event) :
    sameTransaction [Event.txBegin, Event.dedupQuery fid minTs, e₂, e₃] 1 2 := by
  refine ⟨?_, ?_, ?_⟩ <;>
    simp [beginsBefore, endsBefore, List.countP_cons, isTxBegin, isTxEnd]

/-- C6: in every ingestion run, whenever the trace contains the dedup count
query at position `i` and the bulk insert at position `j`, the two execute
inside one and the same storage transaction — the insert is never issued
outside the transaction of the dedup read. -/
theorem check_then_act_same_txn (db : List StoredRecord) (file : NcFile)
    (oracle : InsertOutcome) (i j : Nat) (fid : String) (minTs : Int)
    (recs : List StoredRecord)
    (hi : (runIngestion db file oracle).2.1[i]? = some (Event.dedupQuery fid minTs))
    (hj : (runIngestion db file oracle).2.1[j]? = some (Event.bulkInsert recs)) :
    sameTransaction (runIngestion db file oracle).2.1 i j := by
  cases hp : parse_argo_file file with
  | none =>
    rw [show (runIngestion db file oracle).2.1 = [] from by simp [runIngestion, hp]] at hi
    simp at hi
  | some batch =>
    cases batch with
    | nil =>
      rw [show (runIngestion db file oracle).2.1 = [] from by simp [runIngestion, hp]] at hi
      simp at hi
    | cons b bs =>
      by_cases hai : alreadyIngested db (b :: bs) = true
      · rw [show (runIngestion db file oracle).2.1 =
            [Event.txBegin, Event.dedupQuery (batchFid (b :: bs)) (batchMinTs (b :: bs)),
             Event.txCommit] from by simp [runIngestion, hp, hai]] at hj
        rcases j with _ | _ | _ | j <;> simp at hj
      · cases oracle with
        | constructFail =>
          rw [show (runIngestion db file InsertOutcome.constructFail).2.1 =
              [Event.txBegin, Event.dedupQuery (batchFid (b :: bs)) (batchMinTs (b :: bs)),
               Event.txRollback] from by simp [runIngestion, hp, hai]] at hj
          rcases j with _ | _ | _ | j <;> simp at hj
        | insertFail =>
          rw [show (runIngestion db file InsertOutcome.insertFail).2.1 =
              [Event.txBegin, Event.dedupQuery (batchFid (b :: bs)) (batchMinTs (b :: bs)),
               Event.bulkInsert ((b :: bs).map makeRecord), Event.txRollback] from by
                simp [runIngestion, hp, hai]] at hi hj ⊢
          rcases i with _ | _ | _ | _ | i <;> rcases j with _ | _ | _ | _ | j <;>
            simp at hi hj
          exact sameTransaction_one_two _ _ _ _
        | ok =>
          rw [show (runIngestion db file InsertOutcome.ok).2.1 =
              [Event.txBegin, Event.dedupQuery (batchFid (b :: bs)) (batchMinTs (b :: bs)),
               Event.bulkInsert ((b :: bs).map makeRecord), Event.txCommit] from by
                simp [runIngestion, hp, hai]] at hi hj ⊢
          rcases i with _ | _ | _ | _ | i <;> rcases j with _ | _ | _ | _ | j <;>
            simp at hi hj
          exact sameTransaction_one_two _ _ _ _

/-- Witness for C6 on a concrete run whose trace holds the dedup query at
position 1 and the bulk insert at position 2. -/
theorem check_then_act_same_txn_witness :
    sameTransaction (runIngestion [] sampleFile InsertOutcome.ok).2.1 1 2 :=
  check_then_act_same_txn [] sampleFile InsertOutcome.ok 1 2 "2902347" 0
    ([sampleRow].map makeRecord) (by decide) (by decide)

/-! ## C8: the Schema Manager -/

/-- Catalog lookup of a table's column list. -/
def Catalog.columnsOf (c : Catalog) (name : String) : Option (List ColumnDef) :=
  (c.tables.find? (fun t => t.1 == name)).map Prod.snd

/-- C8: at startup, when `argo_measurements` is absent the table is created
with exactly the `argo_table` column list — surrogate auto-increment integer
primary key, `float_id` string(20), `timestamp` datetime, the five float
columns, and a POINT geometry column with SRID 4326 — and when the table
already exists the catalog is left completely unchanged. -/
theorem ensure_schema_correct (c : Catalog) :
    (c.hasTable "argo_measurements" = false →
       (ensureSchema c).tables = c.tables ++ [("argo_measurements", argo_table)] ∧
       (ensureSchema c).columnsOf "argo_measurements" = some argo_table) ∧
    (c.hasTable "argo_measurements" = true → ensureSchema c = c) ∧
    argo_table =
      [ { name := "id", ty := ColType.integer, primaryKey := true, autoincrement := true },
        { name := "float_id", ty := ColType.string 20 },
        { name := "timestamp", ty := ColType.datetime },
        { name := "latitude", ty := ColType.float },
        { name := "longitude", ty := ColType.float },
        { name := "pressure", ty := ColType.float },
        { name := "temperature", ty := ColType.float },
        { name := "salinity", ty := ColType.float },
        { name := "location", ty := ColType.geometry "POINT" 4326 } ] := by
  refine ⟨?_, ?_, rfl⟩
  · intro habs
    have htab : (ensureSchema c).tables = c.tables ++ [("argo_measurements", argo_table)] := by
      simp [ensureSchema, habs]
    refine ⟨htab, ?_⟩
    have hnone : c.tables.find? (fun t => t.1 == "argo_measurements") = none := by
      rw [List.find?_eq_none]
      intro t ht hbeq
      have : c.hasTable "argo_measurements" = true :=
        List.any_eq_true.mpr ⟨t, ht, hbeq⟩
      rw [habs] at this
      cases this
    rw [Catalog.columnsOf, htab, List.find?_append, hnone]
    simp
  · intro hpres
    simp [ensureSchema, hpres]

/-- Witness for C8 on the empty catalog and on a catalog already holding the
table. -/
theorem ensure_schema_correct_witness :
    (ensureSchema { tables := [] }).columnsOf "argo_measurements" = some argo_table ∧
    ensureSchema { tables := [("argo_measurements", argo_table)] } =
      { tables := [("argo_measurements", argo_table)] } :=
  ⟨((ensure_schema_correct { tables := [] }).1 (by decide)).2,
   (ensure_schema_correct { tables := [("argo_measurements", argo_table)] }).2.1 (by decide)⟩

/-! ## C9: the spatial query of the map tool -/

/-- A second stored record (outside the witness bounding box). -/
def otherRow : Row :=
  { float_id := "5904321", timestamp := 7, latitude := 50, longitude := 100,
    pressure := 6, temperature := 2, salinity := 34 }

/-- C9: for every bounding box, the map query returns exactly the distinct
`(float_id, latitude, longitude, timestamp)` projections of the stored
records whose SRID-4326 `location` lies within the closed envelope — none
outside it — with no duplicate rows, ordered by timestamp descending. -/
theorem spatial_query_correct (db : List StoredRecord) (minLon minLat maxLon maxLat : Rat)
    (hlon : minLon ≤ maxLon) (hlat : minLat ≤ maxLat)
    (hsrid : ∀ s ∈ db, s.location.srid = 4326) :
    (∀ q, q ∈ spatialQuery db minLon minLat maxLon maxLat ↔
       ∃ s ∈ db, (minLon ≤ s.location.x ∧ s.location.x ≤ maxLon ∧
         minLat ≤ s.location.y ∧ s.location.y ≤ maxLat) ∧ q = projQRow s) ∧
    (spatialQuery db minLon minLat maxLon maxLat).Nodup ∧
    List.Sorted tsDesc (spatialQuery db minLon minLat maxLon maxLat) := by
  refine ⟨?_, ?_, List.sorted_insertionSort tsDesc _⟩
  · intro q
    rw [spatialQuery, List.mem_insertionSort, List.mem_dedup, List.mem_map]
    constructor
    · rintro ⟨s, hs, rfl⟩
      rcases List.mem_filter.mp hs with ⟨hsdb, hpred⟩
      rw [stIntersectsEnvelope] at hpred
      simp only [Bool.and_eq_true, decide_eq_true_eq] at hpred
      exact ⟨s, hsdb, ⟨hpred.1.1.1, hpred.1.1.2, hpred.1.2, hpred.2⟩, rfl⟩
    · rintro ⟨s, hsdb, ⟨h1, h2, h3, h4⟩, rfl⟩
      refine ⟨s, List.mem_filter.mpr ⟨hsdb, ?_⟩, rfl⟩
      rw [stIntersectsEnvelope]
      simp [h1, h2, h3, h4]
  · exact ((List.perm_insertionSort tsDesc _).nodup_iff).mpr (List.nodup_dedup _)

/-- Witness for C9: with one stored record inside the box `(0,0,30,30)` and
one outside, the query returns the inside record's projection. -/
theorem spatial_query_correct_witness :
    projQRow (makeRecord sampleRow) ∈
      spatialQuery [makeRecord sampleRow, makeRecord otherRow] 0 0 30 30 :=
  ((spatial_query_correct [makeRecord sampleRow, makeRecord otherRow] 0 0 30 30
      (by decide) (by decide) (by decide)).1 (projQRow (makeRecord sampleRow))).mpr
    ⟨makeRecord sampleRow, by decide, by decide, rfl⟩
